import Mathlib

/-!
Shallow embedding of the margin-report engine (Rust repository
`die-kreatur/margin-report`) and verification of its specification claims.

Modelling conventions:
* `rust_decimal::Decimal` values are modelled as `ℚ`.  The 96-bit mantissa /
  28-significant-digit limit of `Decimal` is abstracted away; all inputs
  appearing in the claims are far below those limits.  `Decimal::normalize`
  (strip trailing zeros of the internal scale) is the identity on the
  numeric value, hence invisible in `ℚ`; scale-level facts are expressed
  through divisibility of the denominator instead.
* `trunc_with_scale(2)` (truncation toward zero at two decimal digits) is
  modelled by `ratTrunc` below.
* A `rust_decimal` division panic (division by zero through the unchecked
  `/` operator) is modelled by `Option`-valued functions returning `none`.
* `chrono::DateTime<Utc>` instants are modelled as whole seconds:
  `ℕ` for the poll-alignment calculator (seconds since epoch, the code runs
  on `Utc::now()` which is far after the epoch), `ℤ` for alert timestamps.
* The external cache (redis) bulk write is modelled by a boolean oracle
  `writeOk` passed to the poll-cycle function; the upstream (binance)
  fetch-failure branch of the loop emits a single Error event and touches
  nothing, and is not needed by any claim, so the cycle function models the
  successful-fetch path with the write outcome explicit.
-/

/-- Truncation of a rational toward zero (the rounding used by
`Decimal::trunc_with_scale`): floor for non-negative numbers, ceiling for
negative ones.  Implemented by truncating division of the numerator by the
denominator so that the kernel can evaluate it on concrete inputs; the
floor/ceiling characterization is `ratTrunc_eq`. -/
def ratTrunc (q : ℚ) : ℤ :=
  Int.tdiv q.num q.den

/-- Truncate a rational toward zero at two decimal digits, as
`val.trunc_with_scale(2).normalize()` does in the source (`normalize` only
changes the internal scale, not the value). -/
def truncScale2 (q : ℚ) : ℚ :=
  (ratTrunc (q * 100) : ℚ) / 100

/-- From `src/utils.rs`:
`find_percentage_diff(new, old)` computes `(new - old).checked_div(old)`,
multiplies by 100 on success, falls back to `Decimal::ONE_HUNDRED` when
`old == 0`, and finally applies `trunc_with_scale(2).normalize()`. -/
def find_percentage_diff (n old : ℚ) : ℚ :=
  truncScale2 (if old = 0 then 100 else (n - old) / old * 100)

/-- From `src/utils.rs` (`get_time_slot`): given an instant (whole seconds,
sub-seconds already truncated by the caller), compute the next aligned
instant.  `current_minute = date.minute()`, `left = current_minute % 5`,
`until_next = if left == 0 { 0 } else { 5 - left }`, one extra safety
minute, then `delay = delay_minutes * 60 - date.second()` and
`date + delay`. -/
def get_time_slot (t : ℕ) : ℕ :=
  let current_minute := t / 60 % 60
  let left_until_5_min_interval := current_minute % 5
  let until_next_interval :=
    if left_until_5_min_interval = 0 then left_until_5_min_interval
    else 5 - left_until_5_min_interval
  let delay := until_next_interval + 1
  let delay_secs := delay * 60 - t % 60
  t + delay_secs

section TrendCalculator

/-- Truncation toward zero coincides with floor on non-negatives and with
ceiling on negatives. -/
theorem ratTrunc_eq (q : ℚ) : ratTrunc q = if 0 ≤ q then ⌊q⌋ else ⌈q⌉ := by
  unfold ratTrunc
  by_cases h : 0 ≤ q
  · rw [if_pos h]
    have hn : 0 ≤ q.num := Rat.num_nonneg.mpr h
    rw [Int.tdiv_eq_ediv hn (by positivity)]
    conv_rhs => rw [← Rat.num_div_den q]
    rw [Rat.floor_intCast_div_natCast]
  · rw [if_neg h]
    push_neg at h
    have hn : q.num ≤ 0 := le_of_lt (Rat.num_neg.mpr h)
    have h1 : q.num.tdiv q.den = -((-q.num).tdiv q.den) := by
      rw [Int.neg_tdiv, neg_neg]
    rw [h1, Int.tdiv_eq_ediv (by linarith) (by positivity)]
    have h2 : (⌈q⌉ : ℤ) = -⌊-q⌋ := by
      rw [Int.floor_neg, neg_neg]
    rw [h2]
    congr 1
    have h3 : (-q) = ((-q.num : ℤ) : ℚ) / ((q.den : ℕ) : ℚ) := by
      push_cast
      rw [neg_div, Rat.num_div_den]
    rw [h3, Rat.floor_intCast_div_natCast]

/-- Truncation toward zero fixes every integer. -/
theorem ratTrunc_intCast (z : ℤ) : ratTrunc (z : ℚ) = z := by
  rw [ratTrunc_eq]
  split <;> simp

/-- Two-decimal truncation fixes every integer. -/
theorem truncScale2_intCast (z : ℤ) : truncScale2 (z : ℚ) = z := by
  unfold truncScale2
  have h : ((z : ℚ) * 100) = ((z * 100 : ℤ) : ℚ) := by push_cast; ring
  rw [h, ratTrunc_intCast]
  push_cast
  ring

/-- Zero-divisor fallback of the trend calculator: the sentinel 100. -/
theorem find_percentage_diff_zero_old (n : ℚ) : find_percentage_diff n 0 = 100 := by
  unfold find_percentage_diff
  rw [if_pos rfl]
  have h : (100 : ℚ) = ((100 : ℤ) : ℚ) := by norm_num
  rw [h, truncScale2_intCast]

/-- Claim C4: `percentageChange(new, 0)` returns exactly the sentinel 100 for
every input `new`; the division by zero is guarded (`checked_div` plus
`unwrap_or`), so the function is total. -/
theorem c4_zero_old_sentinel (n : ℚ) : find_percentage_diff n 0 = 100 :=
  find_percentage_diff_zero_old n

/-- Value before truncation lies within 1/100 of the truncation, which never
exceeds it in absolute value and is an integer multiple of 1/100. -/
theorem truncScale2_close (q : ℚ) :
    |q - truncScale2 q| < 1 / 100 ∧ |truncScale2 q| ≤ |q| ∧
      ∃ z : ℤ, truncScale2 q = (z : ℚ) / 100 := by
  unfold truncScale2
  rw [ratTrunc_eq]
  by_cases h : 0 ≤ q * 100
  · simp only [if_pos h]
    have h1 : (⌊q * 100⌋ : ℚ) ≤ q * 100 := Int.floor_le _
    have h2 : q * 100 - 1 < (⌊q * 100⌋ : ℚ) := Int.sub_one_lt_floor _
    have h3 : (0 : ℚ) ≤ (⌊q * 100⌋ : ℚ) := by
      exact_mod_cast Int.floor_nonneg.mpr h
    have hq : 0 ≤ q := by nlinarith
    refine ⟨?_, ?_, ⟨⌊q * 100⌋, rfl⟩⟩
    · rw [abs_lt]
      constructor <;> nlinarith
    · rw [abs_of_nonneg hq, abs_of_nonneg (by positivity : (0:ℚ) ≤ (⌊q * 100⌋ : ℚ) / 100)]
      nlinarith
  · simp only [if_neg h]
    push_neg at h
    have h1 : (q * 100 : ℚ) ≤ (⌈q * 100⌉ : ℚ) := Int.le_ceil _
    have h2 : (⌈q * 100⌉ : ℚ) < q * 100 + 1 := Int.ceil_lt_add_one _
    have h3 : (⌈q * 100⌉ : ℚ) ≤ 0 := by
      have : ⌈q * 100⌉ ≤ (0 : ℤ) := Int.ceil_le.mpr (by exact_mod_cast le_of_lt h)
      exact_mod_cast this
    have hq : q < 0 := by nlinarith
    refine ⟨?_, ?_, ⟨⌈q * 100⌉, rfl⟩⟩
    · rw [abs_lt]
      constructor <;> nlinarith
    · rw [abs_of_neg hq, abs_of_nonpos (by
        have : (⌈q * 100⌉ : ℚ) / 100 ≤ 0 := by linarith [div_nonpos_of_nonpos_of_nonneg h3 (by norm_num : (0:ℚ) ≤ 100)]
        exact this)]
      nlinarith

/-- Claim C3: for `old ≠ 0`, `percentageChange(new, old)` is the value
`(new - old) / old * 100` rounded (toward zero, as `trunc_with_scale(2)`
rounds) to two decimal digits: it is an integer multiple of 1/100, within
1/100 of the exact value, and never exceeds it in absolute value (which
pins it down as the unique 2-decimal truncation).  The trailing-zero
normalization is value-invariant, so in `ℚ` the result simply has a
denominator dividing 100.  In particular `percentageChange(x, x) = 0` for
every nonzero `x`. -/
theorem c3_percentage_change_rounding :
    (∀ n old : ℚ, old ≠ 0 →
      (∃ z : ℤ, find_percentage_diff n old = (z : ℚ) / 100) ∧
      |(n - old) / old * 100 - find_percentage_diff n old| < 1 / 100 ∧
      |find_percentage_diff n old| ≤ |(n - old) / old * 100|) ∧
    (∀ x : ℚ, x ≠ 0 → find_percentage_diff x x = 0) := by
  constructor
  · intro n old h
    have := truncScale2_close ((n - old) / old * 100)
    unfold find_percentage_diff
    rw [if_neg h]
    exact ⟨this.2.2, this.1, this.2.1⟩
  · intro x hx
    unfold find_percentage_diff
    rw [if_neg hx]
    have h0 : (x - x) / x * 100 = (0 : ℚ) := by simp
    rw [h0]
    have h1 : (0 : ℚ) = ((0 : ℤ) : ℚ) := by norm_num
    rw [h1, truncScale2_intCast]

/-- Witness for C3 at the concrete input `(new, old) = (5, 3)` (exact change
200/3 ≈ 66.67, code yields 66.66). -/
theorem c3_percentage_change_rounding_witness :
    (3 : ℚ) ≠ 0 ∧
      ((∃ z : ℤ, find_percentage_diff 5 3 = (z : ℚ) / 100) ∧
        |((5 : ℚ) - 3) / 3 * 100 - find_percentage_diff 5 3| < 1 / 100 ∧
        |find_percentage_diff 5 3| ≤ |((5 : ℚ) - 3) / 3 * 100|) :=
  ⟨by norm_num, c3_percentage_change_rounding.1 5 3 (by norm_num)⟩

end TrendCalculator

section PollAlignment

/-- Counterexample for C6: at instant `00:00:59` (t = 59 seconds) the
computed delay is exactly 1 second — far below the claimed lower bound of
1 minute — even though the target (t = 60, i.e. `00:01:00`) does land on a
`:00` boundary one minute past a 5-minute grid boundary. -/
theorem c6_delay_counterexample :
    get_time_slot 59 = 60 ∧ get_time_slot 59 - 59 < 60 := by
  constructor <;> decide

/-- Claim C6 amended: the poll-alignment computation is pure and total and
always produces a positive delay of at most 5 minutes (it can be as short
as one second, not at least one minute as claimed), landing the target
instant exactly on a `:00` second boundary one minute past a 5-minute grid
boundary (`target % 300 = 60` in seconds-of-epoch arithmetic). -/
theorem c6_time_slot_aligned (t : ℕ) :
    1 ≤ get_time_slot t - t ∧ get_time_slot t - t ≤ 300 ∧
      get_time_slot t % 300 = 60 := by
  unfold get_time_slot
  dsimp only
  split <;> omega

end PollAlignment

/-- From `src/structs.rs` (`MarginData`): one entity's snapshot.  Equality
is structural over all fields (the Rust derive of `PartialEq`/`Eq`;
`Decimal` equality is value equality, matching `ℚ`). -/
structure MarginData where
  asset : String
  total_borrow : ℚ
  total_repay : ℚ
  total_borrow_in_usdt : ℚ
  total_repay_in_usdt : ℚ
  available : ℚ
deriving DecidableEq, Repr

/-- From `src/structs.rs` (`MarginDataUpdated`): old/new snapshot pair of an
Updated event. -/
structure MarginDataUpdated where
  old : MarginData
  new : MarginData
deriving DecidableEq, Repr

/-- From `src/structs.rs` (`TimeDifference`): elapsed time split into days,
hours and minutes from a minute count. -/
structure TimeDifference where
  days : ℤ
  hours : ℤ
  minutes : ℤ
deriving DecidableEq, Repr

/-- From `src/structs.rs` (`TimeDifference::calculate`): Rust `i64`
division/remainder truncate toward zero, hence `Int.tdiv`/`Int.tmod`. -/
def TimeDifference.calculate (min_diff : ℤ) : TimeDifference :=
  { days := Int.tdiv (Int.tdiv min_diff 60) 24
    hours := Int.tmod (Int.tdiv min_diff 60) 24
    minutes := Int.tmod min_diff 60 }

/-- From `src/structs.rs` (`MarginDataUpdated::is_more_than_1m`). -/
def MarginDataUpdated.is_more_than_1m (u : MarginDataUpdated) : Bool :=
  decide ((1000000 : ℚ) ≤ u.new.total_borrow_in_usdt)

/-- From `src/structs.rs` (`MarginDataUpdated::borrow_change`). -/
def MarginDataUpdated.borrow_change (u : MarginDataUpdated) : ℚ :=
  find_percentage_diff u.new.total_borrow u.old.total_borrow

/-- From `src/structs.rs` (`MarginDataUpdated::repay_change`). -/
def MarginDataUpdated.repay_change (u : MarginDataUpdated) : ℚ :=
  find_percentage_diff u.new.total_repay u.old.total_repay

/-- From `src/structs.rs` (`MarginDataUpdated::borrow_repay_ratio`): the raw
quotient `new.total_borrow / new.total_repay`.  In Rust this is the
unchecked `Decimal` division, which panics when `new.total_repay == 0`;
the checked variant below models that panic as `none`.  This `ℚ`-valued
version is only meaningful under `new.total_repay ≠ 0`. -/
def MarginDataUpdated.borrow_repay_ratio (u : MarginDataUpdated) : ℚ :=
  u.new.total_borrow / u.new.total_repay

/-- From `src/structs.rs` (`MarginDataUpdated::is_percent_changed_enough`). -/
def MarginDataUpdated.is_percent_changed_enough (u : MarginDataUpdated) : Bool :=
  decide ((10 : ℚ) ≤ u.borrow_change)

/-- From `src/structs.rs` (`MarginDataUpdated::is_borrowing_rapidly_increased`). -/
def MarginDataUpdated.is_borrowing_rapidly_increased (u : MarginDataUpdated) : Bool :=
  decide ((1000 : ℚ) ≤ u.borrow_change)

/-- From `src/structs.rs` (`MarginDataUpdated::is_borrow_big_enough`):
`new.total_borrow / new.total_repay > 5`, with the `Decimal` division-by-zero
panic made explicit as `none`. -/
def MarginDataUpdated.is_borrow_big_enough_checked (u : MarginDataUpdated) : Option Bool :=
  if u.new.total_repay = 0 then none
  else some (decide ((5 : ℚ) < u.new.total_borrow / u.new.total_repay))

/-- From `src/report.rs` (`MarginDataReport`): the margin-data section of a
built report. -/
structure MarginDataReport where
  total_borrow : ℚ
  total_borrow_usdt : ℚ
  total_repay : ℚ
  total_repay_usdt : ℚ
  borrow_change : ℚ
  repay_change : ℚ
  br_ratio : ℚ
  available : ℚ
deriving DecidableEq, Repr

/-- From `src/report.rs` (`ReportCollector::build_margin_data_report`),
field for field; note the source assigns `total_repay_usdt:
margin_update.new.total_borrow_in_usdt`. -/
def build_margin_data_report (margin_update : MarginDataUpdated) : MarginDataReport :=
  { total_borrow := margin_update.new.total_borrow
    total_borrow_usdt := margin_update.new.total_borrow_in_usdt
    total_repay := margin_update.new.total_repay
    total_repay_usdt := margin_update.new.total_borrow_in_usdt
    borrow_change := margin_update.borrow_change
    repay_change := margin_update.repay_change
    br_ratio := margin_update.borrow_repay_ratio
    available := margin_update.new.available }

/-- Decision of `process_margin_data_update`'s `if`: Rust evaluates
`(is_borrowing_rapidly_increased() || condition_1m) && is_borrow_big_enough()`
with short-circuiting, so the unchecked division inside
`is_borrow_big_enough` runs only when the left disjunction holds;
`none` = the division-by-zero panic. -/
def fire_decision (u : MarginDataUpdated) : Option Bool :=
  if u.is_borrowing_rapidly_increased || (u.is_more_than_1m && u.is_percent_changed_enough)
  then u.is_borrow_big_enough_checked
  else some false

/-- Outcome of one run of `process_margin_data_update` on an Updated event:
the task crashes on the unchecked division, stays silent, or builds and
sends a notification report. -/
inductive UpdateOutcome where
  | crash : UpdateOutcome
  | silent : UpdateOutcome
  | sent : MarginDataReport → TimeDifference → UpdateOutcome
deriving DecidableEq, Repr

/-- Constructor tag of an outcome (0 = crash, 1 = silent, 2 = sent). -/
def UpdateOutcome.kind : UpdateOutcome → ℕ
  | .crash => 0
  | .silent => 1
  | .sent _ _ => 2

/-- Whether a notification report was built and sent. -/
def UpdateOutcome.isSent : UpdateOutcome → Bool
  | .sent _ _ => true
  | _ => false

/-- The margin-data report carried by a sent outcome, if any. -/
def UpdateOutcome.sentReport : UpdateOutcome → Option MarginDataReport
  | .sent r _ => some r
  | _ => none

/-- From `src/report_processor.rs` (`process_margin_data_update`): evaluate
the alert predicate; on fire, read the entity's last-alert timestamp
(`get_last_update_time` falls back to `now` when the cache has no value or
errors — both collapse to `none` here), compute the elapsed
`TimeDifference` from whole minutes (`chrono::Duration::num_minutes`
truncates toward zero), build the report and send it.  Timestamps are in
seconds (`ℤ`).  The full `Report` also aggregates spot/futures series
sections fetched over the network; the claims touching this function only
concern the margin-data section and the send decision, so the sent payload
carries `build_margin_data_report` (from `src/report.rs`) and the elapsed
time. -/
def process_margin_data_update (u : MarginDataUpdated) (last_update : Option ℤ)
    (now : ℤ) : UpdateOutcome :=
  match fire_decision u with
  | none => .crash
  | some false => .silent
  | some true =>
      let last := last_update.getD now
      let min_diff := Int.tdiv (now - last) 60
      .sent (build_margin_data_report u) (TimeDifference.calculate min_diff)

section AlertPolicy

/-- Under a nonzero repay figure, the alert decision collapses to the
conjunction of the change condition and the ratio condition. -/
theorem fire_decision_eq (u : MarginDataUpdated) (h : u.new.total_repay ≠ 0) :
    fire_decision u =
      some ((u.is_borrowing_rapidly_increased ||
          (u.is_more_than_1m && u.is_percent_changed_enough)) &&
        decide ((5 : ℚ) < u.new.total_borrow / u.new.total_repay)) := by
  unfold fire_decision MarginDataUpdated.is_borrow_big_enough_checked
  cases hb : (u.is_borrowing_rapidly_increased ||
      (u.is_more_than_1m && u.is_percent_changed_enough)) <;>
    simp [hb, if_neg h]

/-- Under a nonzero repay figure, a notification is sent exactly when the
boolean alert predicate holds. -/
theorem isSent_process (u : MarginDataUpdated) (last_update : Option ℤ) (now : ℤ)
    (h : u.new.total_repay ≠ 0) :
    (process_margin_data_update u last_update now).isSent =
      ((u.is_borrowing_rapidly_increased ||
          (u.is_more_than_1m && u.is_percent_changed_enough)) &&
        decide ((5 : ℚ) < u.new.total_borrow / u.new.total_repay)) := by
  unfold process_margin_data_update
  rw [fire_decision_eq u h]
  cases hb : ((u.is_borrowing_rapidly_increased ||
      (u.is_more_than_1m && u.is_percent_changed_enough)) &&
    decide ((5 : ℚ) < u.new.total_borrow / u.new.total_repay)) <;>
    simp [UpdateOutcome.isSent]

/-- Claim C1: with a well-defined ratio (`new.total_repay ≠ 0`), a
notification report is built and sent for an Updated event iff
(new borrow / new repay) > 5 and (percentageChange(new borrow, old borrow)
≥ 1000, or new borrow-in-usdt ≥ 1,000,000 and percentageChange ≥ 10); in
particular an event with ratio ≤ 5 never fires, whatever the change. -/
theorem c1_alert_fire_iff (u : MarginDataUpdated) (last_update : Option ℤ)
    (now : ℤ) (h : u.new.total_repay ≠ 0) :
    ((process_margin_data_update u last_update now).isSent = true ↔
      ((5 : ℚ) < u.new.total_borrow / u.new.total_repay ∧
        ((1000 : ℚ) ≤ find_percentage_diff u.new.total_borrow u.old.total_borrow ∨
          ((1000000 : ℚ) ≤ u.new.total_borrow_in_usdt ∧
            (10 : ℚ) ≤ find_percentage_diff u.new.total_borrow u.old.total_borrow)))) ∧
    (u.new.total_borrow / u.new.total_repay ≤ 5 →
      (process_margin_data_update u last_update now).isSent = false) := by
  have hs := isSent_process u last_update now h
  constructor
  · rw [hs]
    simp only [Bool.and_eq_true, Bool.or_eq_true, decide_eq_true_eq,
      MarginDataUpdated.is_borrowing_rapidly_increased,
      MarginDataUpdated.is_more_than_1m,
      MarginDataUpdated.is_percent_changed_enough,
      MarginDataUpdated.borrow_change]
    tauto
  · intro hle
    rw [hs]
    have : decide ((5 : ℚ) < u.new.total_borrow / u.new.total_repay) = false := by
      simp [not_lt.mpr hle]
    simp [this]

/-- Witness for C1: an event with old borrow 1, new borrow 100
(change 9900% ≥ 1000%), new repay 1 (ratio 100 > 5) fires. -/
theorem c1_alert_fire_iff_witness :
    ((MarginDataUpdated.mk ⟨"SOL", 1, 1, 0, 0, 0⟩ ⟨"SOL", 100, 1, 0, 0, 0⟩).new.total_repay ≠ 0) ∧
      (((process_margin_data_update
            (MarginDataUpdated.mk ⟨"SOL", 1, 1, 0, 0, 0⟩ ⟨"SOL", 100, 1, 0, 0, 0⟩)
            none 0).isSent = true ↔
        ((5 : ℚ) < (MarginDataUpdated.mk ⟨"SOL", 1, 1, 0, 0, 0⟩ ⟨"SOL", 100, 1, 0, 0, 0⟩).new.total_borrow /
            (MarginDataUpdated.mk ⟨"SOL", 1, 1, 0, 0, 0⟩ ⟨"SOL", 100, 1, 0, 0, 0⟩).new.total_repay ∧
          ((1000 : ℚ) ≤ find_percentage_diff 100 1 ∨
            ((1000000 : ℚ) ≤ (0 : ℚ) ∧ (10 : ℚ) ≤ find_percentage_diff 100 1)))) ∧
        ((MarginDataUpdated.mk ⟨"SOL", 1, 1, 0, 0, 0⟩ ⟨"SOL", 100, 1, 0, 0, 0⟩).new.total_borrow /
            (MarginDataUpdated.mk ⟨"SOL", 1, 1, 0, 0, 0⟩ ⟨"SOL", 100, 1, 0, 0, 0⟩).new.total_repay ≤ 5 →
          (process_margin_data_update
            (MarginDataUpdated.mk ⟨"SOL", 1, 1, 0, 0, 0⟩ ⟨"SOL", 100, 1, 0, 0, 0⟩)
            none 0).isSent = false)) :=
  ⟨by norm_num,
    c1_alert_fire_iff
      (MarginDataUpdated.mk ⟨"SOL", 1, 1, 0, 0, 0⟩ ⟨"SOL", 100, 1, 0, 0, 0⟩)
      none 0 (by norm_num)⟩

/-- Claim C8: the fire/no-fire decision (and the whole margin-data report
payload) of `process_margin_data_update` is the same for any two stored
last-alert values, including none; the cooldown timestamp only feeds the
elapsed-time field of the sent message. -/
theorem c8_cooldown_independent (u : MarginDataUpdated)
    (la la' : Option ℤ) (now : ℤ) :
    (process_margin_data_update u la now).kind =
        (process_margin_data_update u la' now).kind ∧
      (process_margin_data_update u la now).sentReport =
        (process_margin_data_update u la' now).sentReport := by
  unfold process_margin_data_update
  cases hf : fire_decision u with
  | none => simp [UpdateOutcome.kind, UpdateOutcome.sentReport]
  | some b =>
      cases b <;> simp [UpdateOutcome.kind, UpdateOutcome.sentReport]

/-- Claim C9: the built margin-data report's `total_repay_usdt` field is
assigned the new snapshot's `total_borrow_in_usdt` (hence always equals the
report's `total_borrow_usdt` field), not the snapshot's
`total_repay_in_usdt` — witnessed by an update where the two differ. -/
theorem c9_repay_usdt_is_borrow_usdt :
    (∀ u : MarginDataUpdated, u.new.total_repay ≠ 0 →
      (build_margin_data_report u).total_repay_usdt = u.new.total_borrow_in_usdt ∧
      (build_margin_data_report u).total_repay_usdt =
        (build_margin_data_report u).total_borrow_usdt) ∧
    (∃ u : MarginDataUpdated,
      (build_margin_data_report u).total_repay_usdt ≠ u.new.total_repay_in_usdt) := by
  refine ⟨fun u _ => ⟨rfl, rfl⟩, ⟨MarginDataUpdated.mk ⟨"SOL", 1, 10, 1000, 100, 10⟩ ⟨"SOL", 1, 10, 1000, 100, 10⟩, ?_⟩⟩
  simp only [build_margin_data_report]
  norm_num

/-- Witness for C9 at a concrete update with nonzero repay. -/
theorem c9_repay_usdt_is_borrow_usdt_witness :
    ((MarginDataUpdated.mk ⟨"SOL", 1, 10, 1000, 100, 10⟩ ⟨"SOL", 1, 10, 1000, 100, 10⟩).new.total_repay ≠ 0) ∧
      ((build_margin_data_report (MarginDataUpdated.mk ⟨"SOL", 1, 10, 1000, 100, 10⟩ ⟨"SOL", 1, 10, 1000, 100, 10⟩)).total_repay_usdt =
          (MarginDataUpdated.mk ⟨"SOL", 1, 10, 1000, 100, 10⟩ ⟨"SOL", 1, 10, 1000, 100, 10⟩).new.total_borrow_in_usdt ∧
        (build_margin_data_report (MarginDataUpdated.mk ⟨"SOL", 1, 10, 1000, 100, 10⟩ ⟨"SOL", 1, 10, 1000, 100, 10⟩)).total_repay_usdt =
          (build_margin_data_report (MarginDataUpdated.mk ⟨"SOL", 1, 10, 1000, 100, 10⟩ ⟨"SOL", 1, 10, 1000, 100, 10⟩)).total_borrow_usdt) :=
  ⟨by norm_num,
    c9_repay_usdt_is_borrow_usdt.1
      (MarginDataUpdated.mk ⟨"SOL", 1, 10, 1000, 100, 10⟩ ⟨"SOL", 1, 10, 1000, 100, 10⟩)
      (by norm_num)⟩

/-- Claim C10: the borrow/repay-ratio division is unguarded — it is
well-defined exactly when `new.total_repay ≠ 0`, and for an Updated event
with `total_repay = 0` (and a change large enough to reach the
short-circuited right conjunct) the division-by-zero crash is reachable;
`percentageChange`'s zero-divisor sentinel (always 100) has no counterpart
here. -/
theorem c10_ratio_division_unguarded :
    (∀ u : MarginDataUpdated,
      (u.is_borrow_big_enough_checked = none ↔ u.new.total_repay = 0)) ∧
    (∃ u : MarginDataUpdated, u.new.total_repay = 0 ∧
      ∀ (la : Option ℤ) (now : ℤ),
        process_margin_data_update u la now = UpdateOutcome.crash) ∧
    (∀ x : ℚ, find_percentage_diff x 0 = 100) := by
  refine ⟨?_, ⟨MarginDataUpdated.mk ⟨"A", 1, 1, 0, 0, 0⟩ ⟨"A", 1000, 0, 0, 0, 0⟩, rfl, ?_⟩, find_percentage_diff_zero_old⟩
  · intro u
    unfold MarginDataUpdated.is_borrow_big_enough_checked
    constructor
    · intro hn
      by_contra h
      rw [if_neg h] at hn
      exact Option.some_ne_none _ hn
    · intro h
      rw [if_pos h]
  · intro la now
    have hb : (1000 : ℚ) ≤ find_percentage_diff 1000 1 := by
      unfold find_percentage_diff
      rw [if_neg (by norm_num : (1 : ℚ) ≠ 0)]
      have h99 : ((1000 : ℚ) - 1) / 1 * 100 = ((99900 : ℤ) : ℚ) := by norm_num
      rw [h99, truncScale2_intCast]
      norm_num
    have h1 : (MarginDataUpdated.mk ⟨"A", 1, 1, 0, 0, 0⟩
        ⟨"A", 1000, 0, 0, 0, 0⟩).is_borrowing_rapidly_increased = true := by
      unfold MarginDataUpdated.is_borrowing_rapidly_increased MarginDataUpdated.borrow_change
      simp only [decide_eq_true_eq]
      exact hb
    have hf : fire_decision (MarginDataUpdated.mk ⟨"A", 1, 1, 0, 0, 0⟩
        ⟨"A", 1000, 0, 0, 0, 0⟩) = none := by
      unfold fire_decision
      rw [h1]
      simp only [Bool.true_or, if_true]
      unfold MarginDataUpdated.is_borrow_big_enough_checked
      rw [if_pos rfl]
    unfold process_margin_data_update
    rw [hf]

end AlertPolicy

/-- From `src/structs.rs` (`MarginDataMessage`): the tagged event union sent
from the poll loop to the report processor. -/
inductive MarginDataMessage where
  | error : String → MarginDataMessage
  | update : MarginDataUpdated → MarginDataMessage
  | new : MarginData → MarginDataMessage
deriving DecidableEq, Repr

/-- The in-memory snapshot store (`Mutex<HashMap<String, MarginData>>` in
`src/margin_data.rs`), as a lookup function keyed by asset. -/
def Store : Type := String → Option MarginData

/-- `HashMap::extend` with the staged batch (the `Vec` is first collected
into a `HashMap` keyed by asset, so a later entry for the same asset wins,
which the fold order reproduces). -/
def storeExtend (store : Store) (items : List MarginData) : Store :=
  items.foldl (fun st item => fun a => if a = item.asset then some item else st a) store

/-- Classification loop of `margin_data_processor` (`src/margin_data.rs`):
walk the fresh batch in order against the previous store; an absent asset
stages the snapshot and emits `New`, a structurally different one stages
the snapshot and emits `Update` carrying old and new, an equal one does
nothing.  Returns (staged redis updates, emitted events), both in batch
order.  Note the events are sent on the channel during this loop, before
the bulk cache write. -/
def classifyBatch (store : Store) : List MarginData → List MarginData × List MarginDataMessage
  | [] => ([], [])
  | item :: rest =>
      let tail := classifyBatch store rest
      match store item.asset with
      | none => (item :: tail.1, MarginDataMessage.new item :: tail.2)
      | some previous_item =>
          if previous_item = item then tail
          else (item :: tail.1,
            MarginDataMessage.update ⟨previous_item, item⟩ :: tail.2)

/-- Error text sent when the bulk write fails (`format!("Failed to save
updates to redis: {}", e)`); the formatted cause is irrelevant to the
claims. -/
def redisErrorMsg : String := "Failed to save updates to redis"

/-- One poll cycle of `margin_data_processor` with a successful upstream
fetch, given the batch and the outcome of the bulk cache write: classify
(each classification immediately sends its event), then, if anything was
staged, bulk-write it; on success merge the staged entries into the store,
on failure leave the store untouched and send an additional Error event.
Returns the next store and the full ordered list of sent events. -/
def pollCycle (store : Store) (batch : List MarginData) (writeOk : Bool) :
    Store × List MarginDataMessage :=
  let c := classifyBatch store batch
  if c.1.isEmpty then (store, c.2)
  else if writeOk then (storeExtend store c.1, c.2)
  else (store, c.2 ++ [MarginDataMessage.error redisErrorMsg])

section ChangeDetector

/-- Counterexample for C2: with an empty store and a one-snapshot batch, a
failed bulk write still emits the New event (sent during classification)
followed by the Error event — the Error is emitted in addition to, not
instead of, the batch's New/Updated events — while the store is indeed
left unchanged. -/
theorem c2_events_counterexample :
    (pollCycle (fun _ => none) [⟨"SOL", 1, 10, 1000, 100, 10⟩] false).2 =
        [MarginDataMessage.new ⟨"SOL", 1, 10, 1000, 100, 10⟩,
          MarginDataMessage.error redisErrorMsg] ∧
      MarginDataMessage.new ⟨"SOL", 1, 10, 1000, 100, 10⟩ ∈
        (pollCycle (fun _ => none) [⟨"SOL", 1, 10, 1000, 100, 10⟩] false).2 ∧
      (pollCycle (fun _ => none) [⟨"SOL", 1, 10, 1000, 100, 10⟩] false).1 =
        (fun _ => none) := by
  refine ⟨rfl, ?_, rfl⟩
  rw [show (pollCycle (fun _ => none) [⟨"SOL", 1, 10, 1000, 100, 10⟩] false).2 =
      [MarginDataMessage.new ⟨"SOL", 1, 10, 1000, 100, 10⟩,
        MarginDataMessage.error redisErrorMsg] from rfl]
  exact List.mem_cons_self _ _

/-- Claim C2 amended: for every poll cycle whose staged batch is non-empty
and whose bulk cache write fails, the in-memory snapshot store is left
completely unchanged (no partial merge of any staged entity) and an Error
event is emitted in addition to the batch's New/Updated events, which were
already sent during classification; only the store merge — not event
emission — is conditional on the bulk write succeeding. -/
theorem c2_failed_write_keeps_store (store : Store) (batch : List MarginData)
    (h : (classifyBatch store batch).1 ≠ []) :
    (pollCycle store batch false).1 = store ∧
      (pollCycle store batch false).2 =
        (classifyBatch store batch).2 ++ [MarginDataMessage.error redisErrorMsg] := by
  unfold pollCycle
  rw [if_neg (by simpa [List.isEmpty_iff] using h)]
  exact ⟨rfl, rfl⟩

/-- Witness for C2 (amended) at the concrete empty store and singleton
batch of the counterexample. -/
theorem c2_failed_write_keeps_store_witness :
    ((classifyBatch (fun _ => none) [⟨"SOL", 1, 10, 1000, 100, 10⟩]).1 ≠ []) ∧
      ((pollCycle (fun _ => none) [⟨"SOL", 1, 10, 1000, 100, 10⟩] false).1 = (fun _ => none) ∧
        (pollCycle (fun _ => none) [⟨"SOL", 1, 10, 1000, 100, 10⟩] false).2 =
          (classifyBatch (fun _ => none) [⟨"SOL", 1, 10, 1000, 100, 10⟩]).2 ++
            [MarginDataMessage.error redisErrorMsg]) :=
  ⟨by simp [classifyBatch],
    c2_failed_write_keeps_store (fun _ => none) [⟨"SOL", 1, 10, 1000, 100, 10⟩]
      (by simp [classifyBatch])⟩

end ChangeDetector

section Idempotence

/-- A batch entity whose stored snapshot is structurally equal contributes
nothing; over a whole such batch, classification stages no write and emits
no event. -/
theorem classifyBatch_nil_of_stored (store : Store) (batch : List MarginData)
    (h : ∀ item ∈ batch, store item.asset = some item) :
    classifyBatch store batch = ([], []) := by
  induction batch with
  | nil => rfl
  | cons item rest ih =>
      have h1 := h item (List.mem_cons_self _ _)
      have h2 : ∀ x ∈ rest, store x.asset = some x :=
        fun x hx => h x (List.mem_cons_of_mem _ hx)
      simp [classifyBatch, h1, ih h2]

/-- The staged list is a sublist of the batch. -/
theorem classifyBatch_staged_sublist (store : Store) (batch : List MarginData) :
    (classifyBatch store batch).1.Sublist batch := by
  induction batch with
  | nil => simp [classifyBatch]
  | cons item rest ih =>
      simp only [classifyBatch]
      cases hs : store item.asset with
      | none => exact List.Sublist.cons₂ _ ih
      | some prev =>
          by_cases he : prev = item
          · simp only [he, if_pos rfl]
            exact ih.cons _
          · simp only [if_neg he]
            exact List.Sublist.cons₂ _ ih

/-- Every batch entity is either staged or already stored structurally
equal. -/
theorem classifyBatch_mem_or_stored (store : Store) (batch : List MarginData) :
    ∀ item ∈ batch,
      item ∈ (classifyBatch store batch).1 ∨ store item.asset = some item := by
  induction batch with
  | nil => intro item h; simp at h
  | cons hd rest ih =>
      intro item hmem
      rcases List.mem_cons.mp hmem with heq | hrest
      · subst heq
        cases hs : store item.asset with
        | none => left; simp [classifyBatch, hs]
        | some prev =>
            by_cases he : prev = item
            · right
              exact congrArg some he
            · left; simp [classifyBatch, hs, if_neg he]
      · rcases ih item hrest with h1 | h2
        · left
          cases hs : store hd.asset with
          | none => simp [classifyBatch, hs, h1]
          | some prev =>
              by_cases he : prev = hd <;> simp [classifyBatch, hs, he, h1]
        · right; exact h2

/-- Unrolling `storeExtend` one staged entity at a time. -/
theorem storeExtend_cons (store : Store) (h : MarginData) (t : List MarginData) :
    storeExtend store (h :: t) =
      storeExtend (fun a => if a = h.asset then some h else store a) t := rfl

/-- A key not touched by the staged batch keeps its previous binding. -/
theorem storeExtend_not_mem (items : List MarginData) :
    ∀ (store : Store) (a : String), a ∉ items.map (fun d => d.asset) →
      storeExtend store items a = store a := by
  induction items with
  | nil => intro store a _; rfl
  | cons h t ih =>
      intro store a ha
      rw [List.map_cons, List.mem_cons] at ha
      push_neg at ha
      rw [storeExtend_cons, ih _ a ha.2]
      exact if_neg ha.1

/-- With pairwise distinct assets, merging the staged batch binds each
staged entity's asset to that entity. -/
theorem storeExtend_mem (items : List MarginData) :
    ∀ (store : Store) (item : MarginData),
      (items.map (fun d => d.asset)).Nodup → item ∈ items →
        storeExtend store items item.asset = some item := by
  induction items with
  | nil => intro _ _ _ h; simp at h
  | cons h t ih =>
      intro store item hnd hmem
      rw [List.map_cons, List.nodup_cons] at hnd
      rw [storeExtend_cons]
      rcases List.mem_cons.mp hmem with heq | ht
      · subst heq
        rw [storeExtend_not_mem t _ _ hnd.1]
        simp
      · exact ih _ item hnd.2 ht

/-- After a successful cycle over a batch with pairwise distinct assets,
the store binds every batch entity to exactly the snapshot just seen. -/
theorem pollCycle_true_lookup (store : Store) (batch : List MarginData)
    (hnd : (batch.map (fun d => d.asset)).Nodup) :
    ∀ item ∈ batch, (pollCycle store batch true).1 item.asset = some item := by
  intro item hmem
  have hfst : (pollCycle store batch true).1 =
      if (classifyBatch store batch).1.isEmpty then store
      else storeExtend store (classifyBatch store batch).1 := by
    unfold pollCycle
    by_cases hc : (classifyBatch store batch).1.isEmpty <;> simp [hc]
  rw [hfst]
  by_cases hc : (classifyBatch store batch).1.isEmpty
  · rw [if_pos hc]
    rcases classifyBatch_mem_or_stored store batch item hmem with h1 | h2
    · rw [List.isEmpty_iff] at hc
      rw [hc] at h1
      simp at h1
    · exact h2
  · rw [if_neg hc]
    by_cases hstaged : item ∈ (classifyBatch store batch).1
    · have hnd' : ((classifyBatch store batch).1.map (fun d => d.asset)).Nodup :=
        ((classifyBatch_staged_sublist store batch).map _).nodup hnd
      exact storeExtend_mem _ store item hnd' hstaged
    · have hinj := (List.nodup_map_iff_inj_on (List.Nodup.of_map _ hnd)).mp hnd
      have hna : item.asset ∉ (classifyBatch store batch).1.map (fun d => d.asset) := by
        intro hcontra
        rcases List.mem_map.mp hcontra with ⟨b, hb, hba⟩
        have hbbatch : b ∈ batch := (classifyBatch_staged_sublist store batch).subset hb
        have : b = item := hinj b hbbatch item hmem hba
        rw [this] at hb
        exact hstaged hb
      rw [storeExtend_not_mem _ _ _ hna]
      rcases classifyBatch_mem_or_stored store batch item hmem with h1 | h2
      · exact absurd h1 hstaged
      · exact h2

/-- A cycle whose classification is empty emits nothing, whatever the
write outcome. -/
theorem pollCycle_snd_of_classify_nil (store : Store) (batch : List MarginData)
    (w : Bool) (h : classifyBatch store batch = ([], [])) :
    (pollCycle store batch w).2 = [] := by
  unfold pollCycle
  rw [h]
  rfl

/-- Claim C7: the change detector is idempotent under no change — a batch
whose entities are all already stored structurally equal yields no events
and stages no writes; consequently, feeding the same batch (with pairwise
distinct assets, as upstream delivers one snapshot per asset) twice with a
successful bulk write on the first pass produces no events and no staged
writes on the second pass. -/
theorem c7_no_change_idempotent :
    (∀ (store : Store) (batch : List MarginData),
      (∀ item ∈ batch, store item.asset = some item) →
        classifyBatch store batch = ([], [])) ∧
    (∀ (store : Store) (batch : List MarginData),
      (batch.map (fun d => d.asset)).Nodup →
        classifyBatch (pollCycle store batch true).1 batch = ([], []) ∧
        (pollCycle (pollCycle store batch true).1 batch true).2 = []) := by
  refine ⟨classifyBatch_nil_of_stored, fun store batch hnd => ?_⟩
  have hlookup := pollCycle_true_lookup store batch hnd
  have hclass := classifyBatch_nil_of_stored _ batch hlookup
  refine ⟨hclass, ?_⟩
  exact pollCycle_snd_of_classify_nil _ batch true hclass

/-- Witness for C7: empty initial store, singleton batch. -/
theorem c7_no_change_idempotent_witness :
    (([⟨"SOL", 1, 10, 1000, 100, 10⟩] : List MarginData).map (fun d => d.asset)).Nodup ∧
      (classifyBatch
          (pollCycle (fun _ => none) [⟨"SOL", 1, 10, 1000, 100, 10⟩] true).1
          [⟨"SOL", 1, 10, 1000, 100, 10⟩] = ([], []) ∧
        (pollCycle (pollCycle (fun _ => none) [⟨"SOL", 1, 10, 1000, 100, 10⟩] true).1
          [⟨"SOL", 1, 10, 1000, 100, 10⟩] true).2 = []) :=
  ⟨by simp,
    c7_no_change_idempotent.2 (fun _ => none) [⟨"SOL", 1, 10, 1000, 100, 10⟩] (by simp)⟩

end Idempotence


/-- From `src/binance.rs` (`BinanceLongShortRatioPositions`): one long/short
position-ratio sample; `datetime` as seconds (`ℤ`), ordered as in chrono. -/
structure BinanceLongShortRatioPositions where
  symbol : String
  long_account : ℚ
  short_account : ℚ
  long_short_ratio : ℚ
  datetime : ℤ
deriving DecidableEq, Repr

namespace Report

/-- From `src/report.rs` (`Interval`): the retrospective window labels
(named inside the `Report` namespace because Mathlib already has a root
`Interval`). -/
inductive Interval where
  | Now : Interval
  | M5 : Interval
  | M15 : Interval
  | H1 : Interval
  | H4 : Interval
deriving DecidableEq, Repr

/-- From `src/report.rs` (`Interval::index`): positional offset of each
window into a descending-by-time series on the 5-minute grid. -/
def Interval.index : Interval → ℕ
  | .Now => 0
  | .M5 => 1
  | .M15 => 3
  | .H1 => 12
  | .H4 => 48

/-- From `src/report.rs` (`INTERVALS`): the fixed ordered window set walked
when building per-window entries (Now is handled separately). -/
def INTERVALS : List Interval := [Interval.M5, Interval.M15, Interval.H1, Interval.H4]

/-- From `src/report.rs` (`LongShortRatioReport`). -/
structure LongShortRatioReport where
  interval : Interval
  ratio : ℚ
deriving DecidableEq, Repr

instance decRelLSR :
    DecidableRel (fun (a b : BinanceLongShortRatioPositions) => b.datetime ≤ a.datetime) :=
  fun a b => inferInstanceAs (Decidable (b.datetime ≤ a.datetime))

/-- From `src/report.rs` (`get_long_short_ratios`): sort the samples so the
newest goes first (`sort_by(|i1, i2| i2.datetime.cmp(&i1.datetime))`,
a stable descending sort, modelled by a stable insertion sort), return
empty on an empty series, otherwise build one entry per resolvable window
offset (each ratio truncated to two decimals and normalized) and prepend a
Now entry holding the newest sample's own truncated ratio. -/
def get_long_short_ratios (ratios : List BinanceLongShortRatioPositions) :
    List LongShortRatioReport :=
  match (List.insertionSort
      (fun a b => b.datetime ≤ a.datetime) ratios).head? with
  | none => []
  | some recent =>
      LongShortRatioReport.mk Interval.Now (truncScale2 recent.long_short_ratio) ::
        INTERVALS.filterMap (fun i =>
          ((List.insertionSort
              (fun a b => b.datetime ≤ a.datetime) ratios)[i.index]?).map
            (fun r => LongShortRatioReport.mk i (truncScale2 r.long_short_ratio)))

/-- The windows surviving the per-offset lookup are exactly those whose
offset is inside the series. -/
theorem filterMap_window_intervals (sorted : List BinanceLongShortRatioPositions)
    (L : List Interval) :
    (L.filterMap (fun i =>
      (sorted[i.index]?).map
        (fun r => LongShortRatioReport.mk i (truncScale2 r.long_short_ratio)))).map
          (fun r => r.interval) =
      L.filter (fun i => i.index < sorted.length) := by
  induction L with
  | nil => rfl
  | cons i L ih =>
      rw [List.filterMap_cons]
      by_cases hi : i.index < sorted.length
      · rw [List.getElem?_eq_getElem hi]
        simp [List.filter_cons, hi, ih]
      · rw [List.getElem?_eq_none (Nat.le_of_not_lt hi)]
        simp [List.filter_cons, hi, ih]

/-- On a non-empty series the analyzer emits the Now entry plus exactly the
windows whose fixed offset fits inside the series length. -/
theorem get_long_short_ratios_map_interval (l : List BinanceLongShortRatioPositions)
    (hne : l ≠ []) :
    (get_long_short_ratios l).map (fun r => r.interval) =
      Interval.Now :: INTERVALS.filter (fun i => i.index < l.length) := by
  have hlen : (List.insertionSort
      (fun a b => b.datetime ≤ a.datetime) l).length = l.length :=
    List.length_insertionSort _ _
  obtain ⟨hd, tl, hsl⟩ : ∃ hd tl, List.insertionSort
      (fun a b => b.datetime ≤ a.datetime) l = hd :: tl := by
    cases h : List.insertionSort (fun a b => b.datetime ≤ a.datetime) l with
    | nil =>
        rw [h] at hlen
        exact absurd (List.length_eq_zero.mp hlen.symm) hne
    | cons hd tl => exact ⟨hd, tl, rfl⟩
  unfold get_long_short_ratios
  rw [hsl] at hlen ⊢
  rw [List.head?_cons, List.map_cons, filterMap_window_intervals, hlen]

/-- Claim C5: the window offset mapping is the fixed total function Now=0,
5m=1, 15m=3, 1h=12, 4h=48; a window whose offset exceeds the series is
silently omitted: a descending-sorted long/short-ratio series of length 49
yields exactly the five entries Now, 5m, 15m, 1h, 4h, and one of length 10
yields exactly Now, 5m, 15m. -/
theorem c5_window_offsets :
    (Interval.Now.index = 0 ∧ Interval.M5.index = 1 ∧ Interval.M15.index = 3 ∧
      Interval.H1.index = 12 ∧ Interval.H4.index = 48) ∧
    (∀ l : List BinanceLongShortRatioPositions,
      List.Sorted (fun a b => b.datetime ≤ a.datetime) l → l.length = 49 →
        (get_long_short_ratios l).map (fun r => r.interval) =
          [Interval.Now, Interval.M5, Interval.M15, Interval.H1, Interval.H4]) ∧
    (∀ l : List BinanceLongShortRatioPositions,
      List.Sorted (fun a b => b.datetime ≤ a.datetime) l → l.length = 10 →
        (get_long_short_ratios l).map (fun r => r.interval) =
          [Interval.Now, Interval.M5, Interval.M15]) := by
  refine ⟨⟨rfl, rfl, rfl, rfl, rfl⟩, ?_, ?_⟩
  · intro l _ hlen
    have hne : l ≠ [] := by
      intro h
      rw [h] at hlen
      simp at hlen
    rw [get_long_short_ratios_map_interval l hne, hlen]
    rfl
  · intro l _ hlen
    have hne : l ≠ [] := by
      intro h
      rw [h] at hlen
      simp at hlen
    rw [get_long_short_ratios_map_interval l hne, hlen]
    rfl

/-- Witness for C5 at a concrete strictly descending 49-sample series. -/
theorem c5_window_offsets_witness :
    List.Sorted (fun (a b : BinanceLongShortRatioPositions) => b.datetime ≤ a.datetime)
        ((List.range 49).map
          (fun n => BinanceLongShortRatioPositions.mk "BTCUSDT" 1 1 2 (-(n : ℤ)))) ∧
      ((List.range 49).map
          (fun n => BinanceLongShortRatioPositions.mk "BTCUSDT" 1 1 2 (-(n : ℤ)))).length = 49 ∧
      (get_long_short_ratios
          ((List.range 49).map
            (fun n => BinanceLongShortRatioPositions.mk "BTCUSDT" 1 1 2 (-(n : ℤ))))).map
          (fun r => r.interval) =
        [Interval.Now, Interval.M5, Interval.M15, Interval.H1, Interval.H4] :=
  ⟨by decide, by decide,
    (c5_window_offsets.2.1
      ((List.range 49).map
        (fun n => BinanceLongShortRatioPositions.mk "BTCUSDT" 1 1 2 (-(n : ℤ))))
      (by decide) (by decide)).trans rfl⟩

end Report
